import Mathlib

/-!
Shallow embedding of the stone-prover configuration scripts:
`config-generator.py` (Policy A step-list calculator and stdin/stdout template
generator), `fri_step_list.py` (Policy B step-list calculator and file-based
generator) and `scripts/cairo0/merge.py` (JSON merger).

Modelling conventions:
* JSON documents are the inductive `Json` below; Python `dict`s become ordered
  association lists, so key order is part of the model.
* Python's float arithmetic `math.log(x, 2)` is modelled by the exact base-2
  logarithm over `ℚ` (`Int.log`/`Int.clog` give its floor and ceiling);
  `round` and `math.ceil` are the exact mathematical operations.
* Python `//` and `%` on integers are floor division and floor modulus, which
  coincide with Lean's `/` and `%` on `ℤ` (`Int.ediv`/`Int.emod`).
* Fallible Python code (exceptions) becomes `Except PyErr` / `Option`; file
  reading and JSON parsing are abstracted as `Except ReadError Json` inputs.
-/

namespace StoneProver

/-- A JSON value.  Objects are ordered association lists, as produced by
Python's `json.load` (which preserves key order). -/
inductive Json where
  | null
  | bool (b : Bool)
  | num (q : ℚ)
  | str (s : String)
  | arr (elems : List Json)
  | obj (entries : List (String × Json))

/-- The Python exceptions that the modelled code can raise. -/
inductive PyErr where
  | valueError        -- `ValueError`, in particular `math domain error`
  | zeroDivisionError -- `ZeroDivisionError`
  | keyError          -- `KeyError`
  | typeError         -- `TypeError`
  deriving DecidableEq

/-- Failures of the abstracted "open a file and `json.load` it" step. -/
inductive ReadError where
  | notFound   -- the path cannot be opened
  | parseError -- the content is not well-formed JSON
  deriving DecidableEq

/-- `d[k]` on a Python dict modelled as an ordered association list:
the value at the first matching key. -/
def lookupKey : List (String × Json) → String → Option Json
  | [], _ => none
  | (k', v') :: rest, k => if k' = k then some v' else lookupKey rest k

/-- `d[k] = v` on a Python dict modelled as an ordered association list:
replace the first occurrence in place (preserving its position), or append
the new key at the end when absent — exactly Python's dict-update semantics. -/
def setKey : List (String × Json) → String → Json → List (String × Json)
  | [], k, v => [(k, v)]
  | (k', v') :: rest, k, v =>
    if k' = k then (k, v) :: rest else (k', v') :: setKey rest k v

/-- `j[k1][k2][k3]` for nested JSON objects. -/
def getPath3 (j : Json) (k1 k2 k3 : String) : Option Json :=
  match j with
  | .obj kvs =>
    match lookupKey kvs k1 with
    | some (.obj s) =>
      match lookupKey s k2 with
      | some (.obj f) => lookupKey f k3
      | _ => none
    | _ => none
  | _ => none

/-- `j[k1][k2][k3] = v`: Python fetches the dicts at `k1` and then `k2`
(failing when either is absent or not a dict) and sets `k3` in the innermost
one; since the outer dicts keep referencing the mutated inner dict, the net
effect is this nested functional update. -/
def setPath3 (j : Json) (k1 k2 k3 : String) (v : Json) : Option Json :=
  match j with
  | .obj kvs =>
    match lookupKey kvs k1 with
    | some (.obj s) =>
      match lookupKey s k2 with
      | some (.obj f) =>
        some (.obj (setKey kvs k1 (.obj (setKey s k2 (.obj (setKey f k3 v))))))
      | _ => none
    | _ => none
  | _ => none

/-- `round(math.log(q, 2))` for a positive rational `q`, under exact real
semantics: the integer nearest to `log₂ q`.  A tie `log₂ q = k + 1/2` would
mean `q = 2 ^ (k + 1/2)`, which is irrational, so no tie ever occurs and the
result is the unique `k` with `2 ^ (2k - 1) < q ^ 2 < 2 ^ (2k + 1)`; it is
computed from the floor `Int.log 2 (q ^ 2)` of `log₂ (q ^ 2)`. -/
def roundLog2 (q : ℚ) : ℤ :=
  (Int.log 2 (q ^ 2) + 1) / 2

/-- `calculate_fri_step_list` of `config-generator.py` (Policy A):

    fri_degree = round(math.log(n_steps / degree_bound, 2)) + 4
    return [0, *[4 for _ in range(fri_degree // 4)], fri_degree % 4]

`n_steps / degree_bound` is Python float division: it raises
`ZeroDivisionError` when `degree_bound` is zero, and `math.log` raises a
`ValueError` (math domain error) when the ratio is not positive.
`range(fri_degree // 4)` is empty when `fri_degree // 4` is negative, which
`Int.toNat` captures. -/
def calculate_fri_step_list (n_steps degree_bound : ℚ) : Except PyErr (List ℤ) :=
  if degree_bound = 0 then .error .zeroDivisionError
  else
    let ratio := n_steps / degree_bound
    if ratio ≤ 0 then .error .valueError
    else
      let fri_degree := roundLog2 ratio + 4
      .ok (0 :: (List.replicate (fri_degree / 4).toNat 4 ++ [fri_degree % 4]))

/-- The step-list computation of `fri_step_list.py`, lines 17–27 (Policy B),
as a function of `program_n_steps` and `last_layer_degree_bound` (the script
fixes the latter to the literal `128` on line 17; see `cpu_air_params_update`):

    last_layer_degree_bound_log = math.ceil(math.log(last_layer_degree_bound, 2))
    program_n_steps_log = math.ceil(math.log(program_n_steps, 2))
    sigma_fri_step_list = program_n_steps_log + 4 - last_layer_degree_bound_log
    (q, r) = divmod(sigma_fri_step_list, 4)
    fri_step_list = [4] * q
    if r > 0: fri_step_list.append(r)

`math.log` raises a `ValueError` on a non-positive argument (the bound's
logarithm is computed first).  `[4] * q` is empty when `q` is negative. -/
def fri_step_list (program_n_steps last_layer_degree_bound : ℚ) :
    Except PyErr (List ℤ) :=
  if last_layer_degree_bound ≤ 0 then .error .valueError
  else if program_n_steps ≤ 0 then .error .valueError
  else
    let last_layer_degree_bound_log := Int.clog 2 last_layer_degree_bound
    let program_n_steps_log := Int.clog 2 program_n_steps
    let sigma_fri_step_list := program_n_steps_log + 4 - last_layer_degree_bound_log
    let q := sigma_fri_step_list / 4
    let r := sigma_fri_step_list % 4
    .ok (List.replicate q.toNat 4 ++ if 0 < r then [r] else [])

/-- The `TEMPLATE` constant of `config-generator.py`. -/
def TEMPLATE : Json :=
  .obj
    [ ("field", .str "PrimeField0"),
      ("channel_hash", .str "poseidon3"),
      ("commitment_hash", .str "blake256_masked160_lsb"),
      ("n_verifier_friendly_commitment_layers", .num 9999),
      ("pow_hash", .str "keccak256"),
      ("statement", .obj [("page_hash", .str "pedersen")]),
      ("stark", .obj
        [ ("fri", .obj
            [ ("fri_step_list", .arr [.num 0, .num 4, .num 4, .num 4]),
              ("last_layer_degree_bound", .num 128),
              ("n_queries", .num 16),
              ("proof_of_work_bits", .num 30) ]),
          ("log_n_cosets", .num 3) ]),
      ("use_extension_field", .bool false),
      ("verifier_friendly_channel_updates", .bool true),
      ("verifier_friendly_commitment_hash", .str "poseidon3") ]

/-- Python `int(x)` applied to a JSON-decoded value: numbers truncate toward
zero, booleans give 0/1, decimal strings parse, everything else raises. -/
def int_of_json : Json → Except PyErr ℤ
  | .num q => .ok (if 0 ≤ q then ⌊q⌋ else ⌈q⌉)
  | .bool b => .ok (if b then 1 else 0)
  | .str s => match s.toInt? with
    | some k => .ok k
    | none => .error .valueError
  | _ => .error .typeError

/-- A list of Python ints serialized back into a JSON array. -/
def jsonOfIntList (l : List ℤ) : Json :=
  .arr (l.map fun i => .num (i : ℚ))

/-- `update_template_and_output` of `config-generator.py`:
`template["stark"]["fri"]["fri_step_list"] = fri_step_list`, then the updated
template is what `json.dump` writes to standard output. -/
def update_template_and_output (template : Json) (l : List ℤ) : Option Json :=
  setPath3 template "stark" "fri" "fri_step_list" (jsonOfIntList l)

/-- `main` of `config-generator.py`, with "read JSON from stdin" abstracted to
the already-parsed `public_input` document: extract
`n_steps = int(public_input["n_steps"])`, take `last_layer_degree_bound =
int(TEMPLATE["stark"]["fri"]["last_layer_degree_bound"])`, compute the step
list and return the updated template that is written to stdout. -/
def main_A (public_input : Json) : Except PyErr Json :=
  match public_input with
  | .obj kvs =>
    match lookupKey kvs "n_steps" with
    | some v => do
      let n_steps ← int_of_json v
      match getPath3 TEMPLATE "stark" "fri" "last_layer_degree_bound" with
      | some bv => do
        let last_layer_degree_bound ← int_of_json bv
        let l ← calculate_fri_step_list (n_steps : ℚ) (last_layer_degree_bound : ℚ)
        match update_template_and_output TEMPLATE l with
        | some out => .ok out
        | none => .error .keyError
      | none => .error .keyError
    | none => .error .keyError
  | _ => .error .typeError

/-- The writing half of `fri_step_list.py` (lines 17 and 29–33): with the
public input's `n_steps` and the parsed `cpu_air_params.json` document given,
the script computes the step list with the hardcoded
`last_layer_degree_bound = 128`, sets
`cpu_air_params['stark']['fri']['fri_step_list']`, and the result is what
`json.dump` writes to the destination file. -/
def cpu_air_params_update (program_n_steps : ℚ) (cpu_air_params : Json) :
    Except PyErr Json := do
  let l ← fri_step_list program_n_steps 128
  match setPath3 cpu_air_params "stark" "fri" "fri_step_list" (jsonOfIntList l) with
  | some out => .ok out
  | none => .error .keyError

/-- What `merge_json_files` of `scripts/cairo0/merge.py` returns: either the
pretty-printed merged document or the string `"An error occurred: ..."`
(the `except Exception` branch turns any failure into a returned string). -/
inductive MergeResult where
  | merged (doc : Json)
  | errorMessage (e : ReadError)

/-- `merge_json_files(program_file, program_input_file)`, with the two
"open and `json.load`" steps abstracted to `Except ReadError Json` inputs:
on success it builds `{"program": ..., "program_input": ...}` (in that key
order) and returns its serialization; any exception is caught and an
`"An error occurred: ..."` string is returned instead. -/
def merge_json_files (program_read program_input_read : Except ReadError Json) :
    MergeResult :=
  match program_read, program_input_read with
  | .ok p, .ok pi => .merged (.obj [("program", p), ("program_input", pi)])
  | .error e, _ => .errorMessage e
  | .ok _, .error e => .errorMessage e

/-- The `__main__` block of `merge.py`: it prints whatever string
`merge_json_files` returned and falls off the end of the script, so the
process exit status is `0` in every case (the second component). -/
def merge_main (program_read program_input_read : Except ReadError Json) :
    MergeResult × ℕ :=
  (merge_json_files program_read program_input_read, 0)

/-! ### Helper lemmas -/

lemma clog_q_128 : Int.clog 2 ((128 : ℚ)) = 7 := by
  have h : ((128 : ℚ)) = ((2 : ℕ) : ℚ) ^ (7 : ℤ) := by norm_num
  rw [h, Int.clog_zpow (by norm_num)]

lemma clog_q_1024 : Int.clog 2 ((1024 : ℚ)) = 10 := by
  have h : ((1024 : ℚ)) = ((2 : ℕ) : ℚ) ^ (10 : ℤ) := by norm_num
  rw [h, Int.clog_zpow (by norm_num)]

lemma clog_cast_128 : Int.clog 2 (((128 : ℤ) : ℚ)) = 7 := by
  push_cast
  exact clog_q_128

lemma clog_cast_1024 : Int.clog 2 (((1024 : ℤ) : ℚ)) = 10 := by
  push_cast
  exact clog_q_1024

lemma roundLog2_eight : roundLog2 8 = 3 := by
  have h : ((8 : ℚ)) ^ 2 = ((2 : ℕ) : ℚ) ^ (6 : ℤ) := by norm_num
  unfold roundLog2
  rw [h, Int.log_zpow (by norm_num)]
  decide

lemma roundLog2_one : roundLog2 1 = 0 := by
  unfold roundLog2
  norm_num [Int.log_one_right]

/-- The Policy A calculator on positive inputs: no exception is raised and the
returned list is literally `[0] + [4]*(fri_degree // 4) + [fri_degree % 4]`. -/
lemma calculate_ok (n llb : ℤ) (hn : 0 < n) (hl : 0 < llb) :
    calculate_fri_step_list (n : ℚ) (llb : ℚ) =
      .ok (0 :: (List.replicate ((roundLog2 ((n : ℚ) / (llb : ℚ)) + 4) / 4).toNat 4 ++
        [(roundLog2 ((n : ℚ) / (llb : ℚ)) + 4) % 4])) := by
  have hl0 : (llb : ℚ) ≠ 0 := by
    exact_mod_cast hl.ne'
  have hq : 0 < (n : ℚ) / (llb : ℚ) := by
    apply div_pos <;> exact_mod_cast ‹_›
  simp only [calculate_fri_step_list, if_neg hl0, if_neg (not_le.mpr hq)]

/-- The Policy B calculator on positive inputs: no exception is raised and the
returned list is `[4] * (sigma // 4)` with the remainder appended when it is
strictly positive. -/
lemma fri_ok (n llb : ℤ) (hn : 0 < n) (hl : 0 < llb) :
    fri_step_list (n : ℚ) (llb : ℚ) =
      .ok (List.replicate
          (((Int.clog 2 ((n : ℚ)) + 4 - Int.clog 2 ((llb : ℚ))) / 4).toNat) 4 ++
        if 0 < (Int.clog 2 ((n : ℚ)) + 4 - Int.clog 2 ((llb : ℚ))) % 4
        then [(Int.clog 2 ((n : ℚ)) + 4 - Int.clog 2 ((llb : ℚ))) % 4] else []) := by
  have hn0 : ¬ ((n : ℚ) ≤ 0) := by
    rw [not_le]; exact_mod_cast hn
  have hl0 : ¬ ((llb : ℚ) ≤ 0) := by
    rw [not_le]; exact_mod_cast hl
  simp only [fri_step_list, if_neg hl0, if_neg hn0]

/-! ### Claim theorems -/

/-- C1: for every positive `n_steps` and positive degree bound, the Policy A
calculator (`calculate_fri_step_list` in `config-generator.py`) computes
`fri_degree = round(log2(n_steps / degree_bound)) + 4` and returns exactly
`[0] + [4]*(fri_degree // 4) + [fri_degree % 4]`; the final element is present
even when `fri_degree % 4 = 0`, yielding a trailing zero in that case. -/
theorem policyA_shape (n llb : ℤ) (hn : 0 < n) (hl : 0 < llb) :
    calculate_fri_step_list (n : ℚ) (llb : ℚ) =
      .ok (0 :: (List.replicate ((roundLog2 ((n : ℚ) / (llb : ℚ)) + 4) / 4).toNat 4 ++
        [(roundLog2 ((n : ℚ) / (llb : ℚ)) + 4) % 4])) ∧
    ((roundLog2 ((n : ℚ) / (llb : ℚ)) + 4) % 4 = 0 →
      (0 :: (List.replicate ((roundLog2 ((n : ℚ) / (llb : ℚ)) + 4) / 4).toNat 4 ++
        [(roundLog2 ((n : ℚ) / (llb : ℚ)) + 4) % 4])).getLast? = some 0) := by
  refine ⟨calculate_ok n llb hn hl, fun h => ?_⟩
  rw [h, ← List.cons_append]
  exact List.getLast?_concat _

/-- C1 witness: at `n_steps = 128`, `degree_bound = 128` the ratio is `1`,
`fri_degree = 4`, and the trailing-zero edge case occurs: `[0, 4, 0]`. -/
theorem policyA_shape_witness :
    calculate_fri_step_list ((128 : ℤ) : ℚ) ((128 : ℤ) : ℚ) = .ok [0, 4, 0] ∧
    ([0, 4, 0] : List ℤ).getLast? = some 0 := by
  have h := policyA_shape 128 128 (by norm_num) (by norm_num)
  have hr : roundLog2 (((128 : ℤ) : ℚ) / ((128 : ℤ) : ℚ)) = 0 := by
    norm_num [roundLog2_one]
  rw [hr] at h
  constructor
  · rw [h.1]; rfl
  · rfl

/-- C2: for every positive `n_steps` and positive degree bound, the Policy B
calculator (`fri_step_list.py`) computes
`sigma = ceil(log2(n_steps)) + 4 - ceil(log2(last_layer_degree_bound))` and
returns `[4]` repeated `sigma // 4` times followed by the remainder
`sigma % 4` only when it is strictly positive; no element of the result is
zero, so there is neither a leading nor a trailing zero. -/
theorem policyB_shape (n llb : ℤ) (hn : 0 < n) (hl : 0 < llb) :
    ∃ l, fri_step_list (n : ℚ) (llb : ℚ) = .ok l ∧
      l = List.replicate
            (((Int.clog 2 ((n : ℚ)) + 4 - Int.clog 2 ((llb : ℚ))) / 4).toNat) 4 ++
          (if 0 < (Int.clog 2 ((n : ℚ)) + 4 - Int.clog 2 ((llb : ℚ))) % 4
           then [(Int.clog 2 ((n : ℚ)) + 4 - Int.clog 2 ((llb : ℚ))) % 4] else []) ∧
      ∀ x ∈ l, x ≠ 0 := by
  refine ⟨_, fri_ok n llb hn hl, rfl, fun x hx => ?_⟩
  rcases List.mem_append.mp hx with h4 | hr
  · rw [List.eq_of_mem_replicate h4]; norm_num
  · by_cases hpos : 0 < (Int.clog 2 ((n : ℚ)) + 4 - Int.clog 2 ((llb : ℚ))) % 4
    · rw [if_pos hpos, List.mem_singleton] at hr
      omega
    · rw [if_neg hpos] at hr
      exact absurd hr (List.not_mem_nil x)

/-- C2 witness: at `n_steps = 1024`, bound `128`: `sigma = 10 + 4 - 7 = 7`,
giving `[4, 3]` — no leading and no trailing zero. -/
theorem policyB_shape_witness :
    fri_step_list ((1024 : ℤ) : ℚ) ((128 : ℤ) : ℚ) = .ok [4, 3] ∧
    ∀ x ∈ ([4, 3] : List ℤ), x ≠ 0 := by
  obtain ⟨l, hok, hshape, hne⟩ := policyB_shape 1024 128 (by norm_num) (by norm_num)
  have hl : l = [4, 3] := by
    rw [hshape, clog_cast_128, clog_cast_1024]
    rfl
  rw [hl] at hok hne
  exact ⟨hok, hne⟩

lemma calc_1024_128 : calculate_fri_step_list 1024 128 = .ok [0, 4, 3] := by
  have h128 : (128 : ℚ) ≠ 0 := by norm_num
  have hratio : (1024 : ℚ) / 128 = 8 := by norm_num
  simp only [calculate_fri_step_list, if_neg h128, hratio, roundLog2_eight]
  rw [if_neg (by norm_num : ¬ (8 : ℚ) ≤ 0)]
  rfl

/-- C8: for every fixed pair of inputs, two runs of either step-list
calculator produce identical outputs — both calculators are pure functions of
their two arguments. -/
theorem step_list_deterministic (n₁ llb₁ n₂ llb₂ : ℚ)
    (hn : n₁ = n₂) (hl : llb₁ = llb₂) :
    calculate_fri_step_list n₁ llb₁ = calculate_fri_step_list n₂ llb₂ ∧
    fri_step_list n₁ llb₁ = fri_step_list n₂ llb₂ := by
  subst hn
  subst hl
  exact ⟨rfl, rfl⟩

/-- C8 witness: two runs at `(1024, 128)` agree. -/
theorem step_list_deterministic_witness :
    calculate_fri_step_list 1024 128 = calculate_fri_step_list 1024 128 ∧
    fri_step_list 1024 128 = fri_step_list 1024 128 :=
  step_list_deterministic 1024 128 1024 128 rfl rfl

lemma policyA_mem (n llb : ℚ) (l : List ℤ)
    (h : calculate_fri_step_list n llb = .ok l) : ∀ x ∈ l, 0 ≤ x ∧ x ≤ 4 := by
  intro x hx
  simp only [calculate_fri_step_list] at h
  split_ifs at h
  injection h with h
  subst h
  have hm1 : 0 ≤ (roundLog2 (n / llb) + 4) % 4 := Int.emod_nonneg _ (by norm_num)
  have hm2 : (roundLog2 (n / llb) + 4) % 4 < 4 := Int.emod_lt_of_pos _ (by norm_num)
  simp only [List.mem_cons, List.mem_append, List.mem_replicate,
    List.not_mem_nil, or_false] at hx
  rcases hx with rfl | ⟨_, rfl⟩ | rfl <;> omega

lemma policyB_mem (n llb : ℚ) (l : List ℤ)
    (h : fri_step_list n llb = .ok l) : ∀ x ∈ l, 0 < x ∧ x ≤ 4 := by
  intro x hx
  have hm1 : 0 ≤ (Int.clog 2 n + 4 - Int.clog 2 llb) % 4 :=
    Int.emod_nonneg _ (by norm_num)
  have hm2 : (Int.clog 2 n + 4 - Int.clog 2 llb) % 4 < 4 :=
    Int.emod_lt_of_pos _ (by norm_num)
  simp only [fri_step_list] at h
  split_ifs at h
  · injection h with h
    subst h
    simp only [List.mem_append, List.mem_replicate, List.mem_cons,
      List.not_mem_nil, or_false] at hx
    rcases hx with ⟨_, rfl⟩ | rfl <;> omega
  · injection h with h
    subst h
    simp only [List.mem_append, List.mem_replicate, List.not_mem_nil,
      or_false] at hx
    rcases hx with ⟨_, rfl⟩
    omega

/-- C9: whenever either calculator returns a list, every element lies between
0 and 4 inclusive; the Policy B list's elements are moreover strictly
positive (the lists are built only from literal 0s and 4s and a remainder
modulo 4). -/
theorem step_list_elements_bounded (n llb : ℚ) (l : List ℤ) :
    (calculate_fri_step_list n llb = .ok l → ∀ x ∈ l, 0 ≤ x ∧ x ≤ 4) ∧
    (fri_step_list n llb = .ok l → ∀ x ∈ l, 0 < x ∧ x ≤ 4) :=
  ⟨policyA_mem n llb l, policyB_mem n llb l⟩

/-- C9 witness: the Policy A output `[0, 4, 3]` at `(1024, 128)` is bounded by
0 and 4. -/
theorem step_list_elements_bounded_witness :
    ∀ x ∈ ([0, 4, 3] : List ℤ), 0 ≤ x ∧ x ≤ 4 :=
  (step_list_elements_bounded 1024 128 [0, 4, 3]).1 calc_1024_128

/-- C6: for every pair of successfully parsed JSON documents, the merger
returns exactly the object with the two keys `program` and `program_input`
in that order, each input nested verbatim; in particular merging
`{"a": 1}` with `{"b": 2}` yields
`{"program": {"a": 1}, "program_input": {"b": 2}}`. -/
theorem merge_shape (p pi : Json) :
    merge_json_files (.ok p) (.ok pi) =
      .merged (.obj [("program", p), ("program_input", pi)]) ∧
    merge_json_files (.ok (.obj [("a", .num 1)])) (.ok (.obj [("b", .num 2)])) =
      .merged (.obj [("program", .obj [("a", .num 1)]),
                     ("program_input", .obj [("b", .num 2)])]) :=
  ⟨rfl, rfl⟩

/-- C5 counterexample: when a source file cannot be read, `merge.py` catches
the exception, prints the `"An error occurred"` string and terminates
normally — the process exit status is `0`, contradicting the claimed nonzero
exit status. -/
theorem merge_exit_zero_counterexample :
    merge_main (.error .notFound) (.ok .null) = (.errorMessage .notFound, 0) :=
  rfl

/-- C5 amended: when the merger fails (a source unreadable or not valid
JSON), the run is terminal and produces no partial merged output: the printed
result is the error message, and the process exits with status `0` (not a
nonzero status). -/
theorem merge_error_reporting (pr pir : Except ReadError Json)
    (h : (∃ e, pr = .error e) ∨ (∃ e, pir = .error e)) :
    ∃ e, merge_main pr pir = (.errorMessage e, 0) := by
  rcases pr with e | p
  · exact ⟨e, rfl⟩
  · rcases pir with e | pi
    · exact ⟨e, rfl⟩
    · rcases h with ⟨e, he⟩ | ⟨e, he⟩ <;> exact Except.noConfusion he

/-- C5 witness: an unparsable program-input file yields the reported error
and exit status `0`. -/
theorem merge_error_reporting_witness :
    ∃ e, merge_main (.error .parseError) (.ok .null) = (.errorMessage e, 0) :=
  merge_error_reporting _ _ (Or.inl ⟨.parseError, rfl⟩)

/-- C4 counterexample: Policy A raises no error at all when both inputs are
negative (the ratio is positive), and raises `ZeroDivisionError` — not the
logarithm-domain `ValueError` — when the degree bound is zero. -/
theorem domain_error_counterexample :
    calculate_fri_step_list ((-1024 : ℤ) : ℚ) ((-128 : ℤ) : ℚ) = .ok [0, 4, 3] ∧
    calculate_fri_step_list ((1024 : ℤ) : ℚ) ((0 : ℤ) : ℚ) =
      .error .zeroDivisionError ∧
    PyErr.zeroDivisionError ≠ PyErr.valueError := by
  refine ⟨?_, ?_, by decide⟩
  · have hm : ((-128 : ℤ) : ℚ) ≠ 0 := by norm_num
    have hr : ((-1024 : ℤ) : ℚ) / ((-128 : ℤ) : ℚ) = 8 := by norm_num
    simp only [calculate_fri_step_list, if_neg hm, hr, roundLog2_eight]
    rw [if_neg (by norm_num : ¬ (8 : ℚ) ≤ 0)]
    rfl
  · have h0 : ((0 : ℤ) : ℚ) = 0 := by norm_num
    simp [calculate_fri_step_list, h0]

/-- C4 amended: Policy B fails with the logarithm-domain `ValueError` exactly
when `n_steps ≤ 0` or the bound is `≤ 0`, succeeding otherwise; Policy A
instead raises `ZeroDivisionError` exactly when the bound is `0`, the
logarithm-domain `ValueError` exactly when the bound is nonzero and
`n_steps * bound ≤ 0`, and succeeds exactly when `n_steps * bound > 0` — in
particular it succeeds when both inputs are negative. -/
theorem domain_error_conditions (n llb : ℤ) :
    (fri_step_list (n : ℚ) (llb : ℚ) = .error .valueError ↔ n ≤ 0 ∨ llb ≤ 0) ∧
    ((∃ l, fri_step_list (n : ℚ) (llb : ℚ) = .ok l) ↔ 0 < n ∧ 0 < llb) ∧
    (calculate_fri_step_list (n : ℚ) (llb : ℚ) = .error .zeroDivisionError ↔
      llb = 0) ∧
    (calculate_fri_step_list (n : ℚ) (llb : ℚ) = .error .valueError ↔
      llb ≠ 0 ∧ n * llb ≤ 0) ∧
    ((∃ l, calculate_fri_step_list (n : ℚ) (llb : ℚ) = .ok l) ↔ 0 < n * llb) := by
  have hcl : ((llb : ℚ) ≤ 0) ↔ llb ≤ 0 := by exact_mod_cast Iff.rfl
  have hcn : ((n : ℚ) ≤ 0) ↔ n ≤ 0 := by exact_mod_cast Iff.rfl
  refine ⟨?_, ?_, ?_, ?_, ?_⟩
  · by_cases hl : (llb : ℚ) ≤ 0
    · simp [fri_step_list, hl, hcl.mp hl]
    · by_cases hn : (n : ℚ) ≤ 0
      · simp [fri_step_list, hl, hn, hcn.mp hn]
      · simp only [fri_step_list, if_neg hl, if_neg hn]
        simp [hcl, hcn] at hl hn ⊢
        omega
  · constructor
    · rintro ⟨l, hl2⟩
      by_cases hl : (llb : ℚ) ≤ 0
      · simp [fri_step_list, hl] at hl2
      · by_cases hn : (n : ℚ) ≤ 0
        · simp [fri_step_list, if_neg hl, hn] at hl2
        · rw [hcl, not_le] at hl
          rw [hcn, not_le] at hn
          exact ⟨hn, hl⟩
    · rintro ⟨hn, hl⟩
      exact ⟨_, fri_ok n llb hn hl⟩
  · by_cases h0 : llb = 0
    · subst h0
      simp [calculate_fri_step_list]
    · have hl0 : (llb : ℚ) ≠ 0 := Int.cast_ne_zero.mpr h0
      simp only [calculate_fri_step_list, if_neg hl0]
      by_cases hq : (n : ℚ) / (llb : ℚ) ≤ 0 <;> simp [hq, h0]
  · by_cases h0 : llb = 0
    · subst h0
      simp [calculate_fri_step_list]
    · have hl0 : (llb : ℚ) ≠ 0 := Int.cast_ne_zero.mpr h0
      have hkey : ((n : ℚ) / (llb : ℚ) ≤ 0) ↔ ((n : ℚ) * (llb : ℚ) ≤ 0) := by
        rw [div_nonpos_iff, mul_nonpos_iff]
      have hmul : ((n : ℚ) * (llb : ℚ) ≤ 0) ↔ n * llb ≤ 0 := by
        exact_mod_cast Iff.rfl
      simp only [calculate_fri_step_list, if_neg hl0]
      by_cases hq : (n : ℚ) / (llb : ℚ) ≤ 0
      · simp [hq, h0, hmul.mp (hkey.mp hq)]
      · have h2 : ¬ ((n : ℚ) * (llb : ℚ) ≤ 0) := fun hc => hq (hkey.mpr hc)
        rw [hmul] at h2
        simp only [if_neg hq]
        simp [h0]
        omega
  · by_cases h0 : llb = 0
    · subst h0
      simp [calculate_fri_step_list]
    · have hl0 : (llb : ℚ) ≠ 0 := Int.cast_ne_zero.mpr h0
      have hkey : ((n : ℚ) / (llb : ℚ) ≤ 0) ↔ ((n : ℚ) * (llb : ℚ) ≤ 0) := by
        rw [div_nonpos_iff, mul_nonpos_iff]
      have hmul : ((n : ℚ) * (llb : ℚ) ≤ 0) ↔ n * llb ≤ 0 := by
        exact_mod_cast Iff.rfl
      simp only [calculate_fri_step_list, if_neg hl0]
      by_cases hq : (n : ℚ) / (llb : ℚ) ≤ 0
      · have : n * llb ≤ 0 := hmul.mp (hkey.mp hq)
        simp [hq]
        omega
      · have : ¬ (n * llb ≤ 0) := fun hc => hq (hkey.mpr (hmul.mpr hc))
        simp [hq]
        omega

/-- Reading a top-level field of a JSON object. -/
def getPath1 (j : Json) (k : String) : Option Json :=
  match j with
  | .obj kvs => lookupKey kvs k
  | _ => none

/-- Reading a field nested two objects deep. -/
def getPath2 (j : Json) (k1 k2 : String) : Option Json :=
  match j with
  | .obj kvs =>
    match lookupKey kvs k1 with
    | some (.obj s) => lookupKey s k2
    | _ => none
  | _ => none

lemma lookupKey_setKey_self (l : List (String × Json)) (k : String) (v : Json) :
    lookupKey (setKey l k v) k = some v := by
  induction l with
  | nil => simp [setKey, lookupKey]
  | cons hd tl ih =>
    obtain ⟨k', v'⟩ := hd
    by_cases h : k' = k
    · simp [setKey, h, lookupKey]
    · simp [setKey, h, lookupKey, ih]

lemma lookupKey_setKey_ne (l : List (String × Json)) (k k' : String) (v : Json)
    (h : k' ≠ k) : lookupKey (setKey l k v) k' = lookupKey l k' := by
  induction l with
  | nil => simp [setKey, lookupKey, Ne.symm h]
  | cons hd tl ih =>
    obtain ⟨k'', v''⟩ := hd
    by_cases hk : k'' = k
    · subst hk
      simp [setKey, lookupKey, Ne.symm h]
    · simp [setKey, hk, lookupKey, ih]

/-- C7: overwriting the nested `stark.fri.fri_step_list` field (as both
generators do before writing their output) changes that field to the new
value and leaves every other field of the document unchanged, at the top
level, inside `stark`, and inside `stark.fri`. -/
theorem update_frame (j j' v : Json)
    (h : setPath3 j "stark" "fri" "fri_step_list" v = some j') :
    getPath3 j' "stark" "fri" "fri_step_list" = some v ∧
    (∀ k, k ≠ "stark" → getPath1 j' k = getPath1 j k) ∧
    (∀ k, k ≠ "fri" → getPath2 j' "stark" k = getPath2 j "stark" k) ∧
    (∀ k, k ≠ "fri_step_list" →
      getPath3 j' "stark" "fri" k = getPath3 j "stark" "fri" k) := by
  cases j with
  | obj kvs =>
    simp only [setPath3] at h
    split at h
    case h_2 => exact Option.noConfusion h
    case h_1 s hs =>
      split at h
      case h_2 => exact Option.noConfusion h
      case h_1 f hf =>
        injection h with h
        subst h
        refine ⟨?_, ?_, ?_, ?_⟩
        · simp [getPath3, lookupKey_setKey_self]
        · intro k hk
          simp [getPath1, lookupKey_setKey_ne _ _ _ _ hk]
        · intro k hk
          simp [getPath2, lookupKey_setKey_self, hs,
            lookupKey_setKey_ne _ _ _ _ hk]
        · intro k hk
          simp [getPath3, lookupKey_setKey_self, hs, hf,
            lookupKey_setKey_ne _ _ _ _ hk]
  | null => exact Option.noConfusion h
  | bool b => exact Option.noConfusion h
  | num q => exact Option.noConfusion h
  | str s => exact Option.noConfusion h
  | arr es => exact Option.noConfusion h

/-- C7 witness: updating the concrete `TEMPLATE` rewrites only
`stark.fri.fri_step_list`; `channel_hash`, `stark.log_n_cosets` and
`stark.fri.n_queries` are untouched. -/
theorem update_frame_witness :
    ∃ j', setPath3 TEMPLATE "stark" "fri" "fri_step_list"
        (jsonOfIntList [0, 4, 3]) = some j' ∧
      getPath3 j' "stark" "fri" "fri_step_list" = some (jsonOfIntList [0, 4, 3]) ∧
      getPath1 j' "channel_hash" = getPath1 TEMPLATE "channel_hash" ∧
      getPath2 j' "stark" "log_n_cosets" = getPath2 TEMPLATE "stark" "log_n_cosets" ∧
      getPath3 j' "stark" "fri" "n_queries" =
        getPath3 TEMPLATE "stark" "fri" "n_queries" := by
  obtain ⟨j', hj'⟩ : ∃ j', setPath3 TEMPLATE "stark" "fri" "fri_step_list"
      (jsonOfIntList [0, 4, 3]) = some j' := ⟨_, rfl⟩
  obtain ⟨h1, h2, h3, h4⟩ := update_frame TEMPLATE j' (jsonOfIntList [0, 4, 3]) hj'
  exact ⟨j', hj', h1, h2 _ (by decide), h3 _ (by decide), h4 _ (by decide)⟩

/-- C10: neither generator takes the degree bound from user input.  The
stdin-based generator's output is a function of the `n_steps` field alone,
its bound being the literal `128` read from `TEMPLATE`, and the file-based
generator always calls the Policy B calculator with the hardcoded `128`. -/
theorem llb_not_user_input (j₁ j₂ v : Json) (nv : ℤ)
    (h₁ : getPath1 j₁ "n_steps" = some v)
    (h₂ : getPath1 j₂ "n_steps" = some v) :
    main_A j₁ = main_A j₂ ∧
    getPath3 TEMPLATE "stark" "fri" "last_layer_degree_bound" = some (.num 128) ∧
    (int_of_json v = .ok nv →
      main_A j₁ = (calculate_fri_step_list (nv : ℚ) ((128 : ℤ) : ℚ)).bind fun l =>
        match update_template_and_output TEMPLATE l with
        | some out => .ok out
        | none => .error .keyError) ∧
    (∀ nq : ℚ, ∀ doc : Json, cpu_air_params_update nq doc =
      (fri_step_list nq 128).bind fun l =>
        match setPath3 doc "stark" "fri" "fri_step_list" (jsonOfIntList l) with
        | some out => .ok out
        | none => .error .keyError) := by
  rcases j₁ with _ | b₁ | q₁ | s₁ | es₁ | kvs₁ <;> try simp [getPath1] at h₁
  rcases j₂ with _ | b₂ | q₂ | s₂ | es₂ | kvs₂ <;> try simp [getPath1] at h₂
  refine ⟨?_, rfl, ?_, fun nq doc => rfl⟩
  · simp only [main_A, h₁, h₂]
  · intro hint
    simp only [main_A, h₁, hint]
    rfl

/-- C10 witness: two public inputs with the same `n_steps` but different
other fields produce the same output document. -/
theorem llb_not_user_input_witness :
    main_A (.obj [("n_steps", .num 1024)]) =
      main_A (.obj [("foo", .null), ("n_steps", .num 1024)]) :=
  (llb_not_user_input (.obj [("n_steps", .num 1024)])
    (.obj [("foo", .null), ("n_steps", .num 1024)]) (.num 1024) 1024 rfl rfl).1

/-! ### Depth-sum analysis for C3 -/

lemma roundLog2_bounds (q : ℚ) (hq : 0 < q) :
    (2 : ℚ) ^ (2 * roundLog2 q - 1) ≤ q ^ 2 ∧
    q ^ 2 < (2 : ℚ) ^ (2 * roundLog2 q + 1) := by
  have hq2 : 0 < q ^ 2 := by positivity
  have h1 := Int.zpow_log_le_self (b := 2) (R := ℚ) (by norm_num) hq2
  have h2 := Int.lt_zpow_succ_log_self (b := 2) (R := ℚ) (by norm_num) (q ^ 2)
  rw [Nat.cast_ofNat] at h1 h2
  have hdiv : 2 * roundLog2 q - 1 ≤ Int.log 2 (q ^ 2) ∧
      Int.log 2 (q ^ 2) + 1 ≤ 2 * roundLog2 q + 1 := by
    unfold roundLog2
    omega
  constructor
  · exact le_trans (zpow_le_zpow_right₀ (by norm_num) hdiv.1) h1
  · exact lt_of_lt_of_le h2 (zpow_le_zpow_right₀ (by norm_num) hdiv.2)

lemma clog_upper (r : ℚ) : r ≤ (2 : ℚ) ^ (Int.clog 2 r) := by
  have h := Int.self_le_zpow_clog (b := 2) (R := ℚ) (by norm_num) r
  rwa [Nat.cast_ofNat] at h

lemma clog_lower (r : ℚ) (hr : 1 ≤ r) : (2 : ℚ) ^ (Int.clog 2 r - 1) < r := by
  have h := Int.zpow_pred_clog_lt_self (b := 2) (R := ℚ) (by norm_num)
    (lt_of_lt_of_le one_pos hr)
  rwa [Nat.cast_ofNat] at h

/-- `round(log₂(n / llb))` is within 1 of `ceil(log₂ n) - ceil(log₂ llb)`. -/
lemma roundLog2_near (n llb : ℤ) (hn : 0 < n) (hl : 0 < llb) :
    Int.clog 2 ((n : ℚ)) - Int.clog 2 ((llb : ℚ)) - 1 ≤
      roundLog2 ((n : ℚ) / (llb : ℚ)) ∧
    roundLog2 ((n : ℚ) / (llb : ℚ)) ≤
      Int.clog 2 ((n : ℚ)) - Int.clog 2 ((llb : ℚ)) + 1 := by
  have hn1 : (1 : ℚ) ≤ (n : ℚ) := by exact_mod_cast hn
  have hl1 : (1 : ℚ) ≤ (llb : ℚ) := by exact_mod_cast hl
  have hnp : (0 : ℚ) < (n : ℚ) := lt_of_lt_of_le one_pos hn1
  have hlp : (0 : ℚ) < (llb : ℚ) := lt_of_lt_of_le one_pos hl1
  set A := Int.clog 2 ((n : ℚ)) with hA
  set B := Int.clog 2 ((llb : ℚ)) with hB
  set k := roundLog2 ((n : ℚ) / (llb : ℚ)) with hk
  have hq : (0 : ℚ) < (n : ℚ) / (llb : ℚ) := div_pos hnp hlp
  obtain ⟨hr1, hr2⟩ := roundLog2_bounds _ hq
  have hnub : (n : ℚ) ≤ (2 : ℚ) ^ A := clog_upper _
  have hnlb : (2 : ℚ) ^ (A - 1) < (n : ℚ) := clog_lower _ hn1
  have hlub : (llb : ℚ) ≤ (2 : ℚ) ^ B := clog_upper _
  have hllb2 : (2 : ℚ) ^ (B - 1) < (llb : ℚ) := clog_lower _ hl1
  constructor
  · have hq_lb : (2 : ℚ) ^ (A - 1 - B) < (n : ℚ) / (llb : ℚ) := by
      rw [lt_div_iff₀ hlp]
      calc (2 : ℚ) ^ (A - 1 - B) * (llb : ℚ)
          ≤ (2 : ℚ) ^ (A - 1 - B) * (2 : ℚ) ^ B := by
            apply mul_le_mul_of_nonneg_left hlub (by positivity)
        _ = (2 : ℚ) ^ (A - 1) := by
            rw [← zpow_add₀ (by norm_num : (2 : ℚ) ≠ 0)]
            congr 1
            ring
        _ < (n : ℚ) := hnlb
    have hsq : (2 : ℚ) ^ (2 * (A - 1 - B)) < ((n : ℚ) / (llb : ℚ)) ^ 2 := by
      have h0 : (0 : ℚ) ≤ (2 : ℚ) ^ (A - 1 - B) := by positivity
      have hmul := mul_self_lt_mul_self h0 hq_lb
      calc (2 : ℚ) ^ (2 * (A - 1 - B))
          = (2 : ℚ) ^ (A - 1 - B) * (2 : ℚ) ^ (A - 1 - B) := by
            rw [← zpow_add₀ (by norm_num : (2 : ℚ) ≠ 0)]
            congr 1
            ring
        _ < (n : ℚ) / (llb : ℚ) * ((n : ℚ) / (llb : ℚ)) := hmul
        _ = ((n : ℚ) / (llb : ℚ)) ^ 2 := (pow_two _).symm
    have hlt : (2 : ℚ) ^ (2 * (A - 1 - B)) < (2 : ℚ) ^ (2 * k + 1) :=
      lt_trans hsq hr2
    have hexp := (zpow_lt_zpow_iff_right₀ (by norm_num : (1 : ℚ) < 2)).mp hlt
    omega
  · have hq_ub : (n : ℚ) / (llb : ℚ) < (2 : ℚ) ^ (A - (B - 1)) := by
      rw [div_lt_iff₀ hlp]
      calc (n : ℚ) ≤ (2 : ℚ) ^ A := hnub
        _ = (2 : ℚ) ^ (A - (B - 1)) * (2 : ℚ) ^ (B - 1) := by
            rw [← zpow_add₀ (by norm_num : (2 : ℚ) ≠ 0)]
            congr 1
            ring
        _ < (2 : ℚ) ^ (A - (B - 1)) * (llb : ℚ) := by
            apply mul_lt_mul_of_pos_left hllb2 (by positivity)
    have hsq : ((n : ℚ) / (llb : ℚ)) ^ 2 < (2 : ℚ) ^ (2 * (A - (B - 1))) := by
      have h0 : (0 : ℚ) ≤ (n : ℚ) / (llb : ℚ) := le_of_lt hq
      have hmul := mul_self_lt_mul_self h0 hq_ub
      calc ((n : ℚ) / (llb : ℚ)) ^ 2
          = (n : ℚ) / (llb : ℚ) * ((n : ℚ) / (llb : ℚ)) := pow_two _
        _ < (2 : ℚ) ^ (A - (B - 1)) * (2 : ℚ) ^ (A - (B - 1)) := hmul
        _ = (2 : ℚ) ^ (2 * (A - (B - 1))) := by
            rw [← zpow_add₀ (by norm_num : (2 : ℚ) ≠ 0)]
            congr 1
            ring
    have hlt : (2 : ℚ) ^ (2 * k - 1) < (2 : ℚ) ^ (2 * (A - (B - 1))) :=
      lt_of_le_of_lt hr1 hsq
    have hexp := (zpow_lt_zpow_iff_right₀ (by norm_num : (1 : ℚ) < 2)).mp hlt
    omega

lemma sum_policyA (d : ℤ) (hd : 0 ≤ d) :
    ((0 : ℤ) :: (List.replicate (d / 4).toNat 4 ++ [d % 4])).sum = d := by
  simp [List.sum_replicate, nsmul_eq_mul]
  omega

lemma sum_policyB (s : ℤ) (hs : 0 ≤ s) :
    (List.replicate (s / 4).toNat (4 : ℤ) ++
      if 0 < s % 4 then [s % 4] else []).sum = s := by
  by_cases h : 0 < s % 4 <;> simp [h, List.sum_replicate, nsmul_eq_mul] <;> omega

/-- C3 counterexample: at `n_steps = 1`, bound `128`, the required depth
`ceil(log2 1) - ceil(log2 128) + 4` is `-3`, but Policy B returns `[1]`
(sum `1`) and Policy A returns `[0, 1]` (sum `1`): both sums differ from the
required depth by `4`, not by at most `1`. -/
theorem step_list_sum_counterexample :
    fri_step_list ((1 : ℤ) : ℚ) ((128 : ℤ) : ℚ) = .ok [1] ∧
    calculate_fri_step_list ((1 : ℤ) : ℚ) ((128 : ℤ) : ℚ) = .ok [0, 1] ∧
    (([1] : List ℤ).sum -
      (Int.clog 2 (((1 : ℤ) : ℚ)) - Int.clog 2 (((128 : ℤ) : ℚ)) + 4)).natAbs > 1 ∧
    (([0, 1] : List ℤ).sum -
      (Int.clog 2 (((1 : ℤ) : ℚ)) - Int.clog 2 (((128 : ℤ) : ℚ)) + 4)).natAbs > 1 := by
  have hc1 : Int.clog 2 (((1 : ℤ) : ℚ)) = 0 := by
    push_cast
    exact Int.clog_one_right 2
  have hround : roundLog2 (((1 : ℤ) : ℚ) / ((128 : ℤ) : ℚ)) = -7 := by
    have h : (((1 : ℤ) : ℚ) / ((128 : ℤ) : ℚ)) ^ 2 = ((2 : ℕ) : ℚ) ^ (-(14 : ℤ)) := by
      rw [zpow_neg]
      norm_num
    unfold roundLog2
    rw [h, Int.log_zpow (by norm_num)]
    decide
  refine ⟨?_, ?_, ?_, ?_⟩
  · rw [fri_ok 1 128 (by norm_num) (by norm_num), hc1, clog_cast_128]
    rfl
  · rw [calculate_ok 1 128 (by norm_num) (by norm_num), hround]
    rfl
  · rw [hc1, clog_cast_128]
    decide
  · rw [hc1, clog_cast_128]
    decide

/-- C3 amended: whenever `ceil(log2 llb) ≤ ceil(log2 n_steps)` (so the
required folding depth is non-negative; the claim fails when `n_steps` is far
below the bound), both calculators terminate and return lists of
non-negative integers whose sums are within 1 of
`ceil(log2 n_steps) - ceil(log2 llb) + 4`. -/
theorem step_list_sum_depth (n llb : ℤ) (hn : 0 < n) (hl : 0 < llb)
    (hle : Int.clog 2 ((llb : ℚ)) ≤ Int.clog 2 ((n : ℚ))) :
    (∃ l, calculate_fri_step_list (n : ℚ) (llb : ℚ) = .ok l ∧
      (∀ x ∈ l, 0 ≤ x) ∧
      (l.sum - (Int.clog 2 ((n : ℚ)) - Int.clog 2 ((llb : ℚ)) + 4)).natAbs ≤ 1) ∧
    (∃ l, fri_step_list (n : ℚ) (llb : ℚ) = .ok l ∧
      (∀ x ∈ l, 0 ≤ x) ∧
      (l.sum - (Int.clog 2 ((n : ℚ)) - Int.clog 2 ((llb : ℚ)) + 4)).natAbs ≤ 1) := by
  obtain ⟨hlow, hup⟩ := roundLog2_near n llb hn hl
  constructor
  · refine ⟨_, calculate_ok n llb hn hl, ?_, ?_⟩
    · intro x hx
      exact (policyA_mem _ _ _ (calculate_ok n llb hn hl) x hx).1
    · rw [sum_policyA _ (by omega)]
      omega
  · refine ⟨_, fri_ok n llb hn hl, ?_, ?_⟩
    · intro x hx
      exact le_of_lt (policyB_mem _ _ _ (fri_ok n llb hn hl) x hx).1
    · rw [sum_policyB _ (by omega)]
      omega

/-- C3 witness: at `(1024, 128)` the depth hypothesis holds and both sums are
exactly `ceil(log2 1024) - ceil(log2 128) + 4 = 7`. -/
theorem step_list_sum_depth_witness :
    (∃ l, calculate_fri_step_list ((1024 : ℤ) : ℚ) ((128 : ℤ) : ℚ) = .ok l ∧
      (∀ x ∈ l, 0 ≤ x) ∧
      (l.sum - (Int.clog 2 (((1024 : ℤ) : ℚ)) -
        Int.clog 2 (((128 : ℤ) : ℚ)) + 4)).natAbs ≤ 1) ∧
    (∃ l, fri_step_list ((1024 : ℤ) : ℚ) ((128 : ℤ) : ℚ) = .ok l ∧
      (∀ x ∈ l, 0 ≤ x) ∧
      (l.sum - (Int.clog 2 (((1024 : ℤ) : ℚ)) -
        Int.clog 2 (((128 : ℤ) : ℚ)) + 4)).natAbs ≤ 1) :=
  step_list_sum_depth 1024 128 (by norm_num) (by norm_num)
    (by rw [clog_cast_128, clog_cast_1024]; norm_num)

end StoneProver
